import Mathlib

/-!
Verification of the room-scoped chat/signaling core of `src/app.py`.

The server state is the pair of Python module-level dictionaries
`active_rooms : {room_id: {sid: username}}` and
`messages : {room_id: [message, ...]}`, plus a counter modelling the
fresh-id supply `uuid.uuid4()` used for message ids.  Python dicts are
insertion-ordered, so they are embedded as association lists; dict
assignment updates a present key in place and appends an absent one,
dict deletion removes the key's binding.  Timestamps
(`datetime.now().isoformat()`) are modelled as a `Nat` clock value
supplied with each inbound event.  Socket.IO delivery (`emit`) is
modelled by returning the list of `(recipient sid, event)` pairs an
event handler pushes out; the per-sid Socket.IO room used by the
signaling handlers (`emit(..., room=target_sid)`) delivers to the
target exactly when that sid is a live registered connection.
-/

namespace ChatApp

/-- Python dict lookup `d.get(k)` on an insertion-ordered association list:
the first binding of the key, if any. -/
def alookup {β : Type} : List (String × β) → String → Option β
  | [], _ => none
  | (k, v) :: rest, key => if k = key then some v else alookup rest key

/-- Python dict assignment `d[k] = v`: replace the value of a present key in
place (keeping its insertion position), append the binding otherwise. -/
def aset {β : Type} : List (String × β) → String → β → List (String × β)
  | [], key, v => [(key, v)]
  | (k, w) :: rest, key, v =>
    if k = key then (key, v) :: rest else (k, w) :: aset rest key v

/-- Python dict deletion `del d[k]`: drop the binding of the key. -/
def aerase {β : Type} (l : List (String × β)) (key : String) :
    List (String × β) :=
  l.filter (fun p => p.1 ≠ key)

/-- Python `str.strip()`: the string with leading and trailing whitespace
removed, written structurally over the character list so that it
evaluates inside the kernel. -/
def pyStrip (s : String) : String :=
  ⟨((s.data.dropWhile Char.isWhitespace).reverse.dropWhile Char.isWhitespace).reverse⟩

/-- Python list slice `l[-n:]`: the last at-most-`n` elements in order. -/
def lastN {α : Type} (n : Nat) (l : List α) : List α :=
  l.drop (l.length - n)

/-- A chat message as built in `handle_message` of `src/app.py`: the dict
with keys id, username, message, timestamp, file.  The `str(uuid.uuid4())`
fresh id is modelled as a `Nat` drawn from the server's id supply;
the attachment descriptor `file_info` is opaque to the core and modelled
as an optional string. -/
structure Message where
  id : Nat
  username : String
  message : String
  timestamp : Nat
  file : Option String
deriving DecidableEq, Repr

/-- The outbound events emitted by the handlers in `src/app.py`, with the
fields of the Python payload dicts in source order. -/
inductive OutEvent where
  | user_left (username message : String) (timestamp : Nat) (users : List String)
  | join_confirmation (username room_id : String) (users : List String)
      (messages : List Message)
  | user_joined (username message : String) (users : List String) (timestamp : Nat)
  | new_message (m : Message)
  | webrtc_offer (offer caller_sid caller_username : String)
  | webrtc_answer (answer sender_sid : String)
  | ice_candidate (candidate sender_sid : String)
deriving DecidableEq, Repr

/-- Every string field occurring in an outbound event (message records
contribute their author, text and attachment fields). -/
def eventStrings : OutEvent → List String
  | .user_left u m _ users => u :: m :: users
  | .join_confirmation u rid users msgs =>
      u :: rid :: users ++ msgs.map Message.username
        ++ msgs.map Message.message
  | .user_joined u m users _ => u :: m :: users
  | .new_message m => [m.username, m.message, m.file.getD ""]
  | .webrtc_offer offer sid name => [offer, sid, name]
  | .webrtc_answer answer sid => [answer, sid]
  | .ice_candidate cand sid => [cand, sid]

/-- The synchronous acknowledgment a Socket.IO handler returns to its
caller: the Python dicts `{'status': 'success'}` and
`{'status': 'error', 'message': ...}`. -/
inductive Ack where
  | success
  | error (message : String)
deriving DecidableEq, Repr

/-- The server's in-memory store: the module-level dicts `active_rooms`
and `messages` of `src/app.py`, plus the fresh-id supply for message ids. -/
structure ServerState where
  active_rooms : List (String × List (String × String))
  messages : List (String × List Message)
  nextId : Nat
deriving DecidableEq, Repr

/-- The empty store the module starts with. -/
def initState : ServerState := ⟨[], [], 0⟩

/-- The members dict of a room (`active_rooms[room_id]`), empty when the
room is absent. -/
def roomMembers (st : ServerState) (room_id : String) :
    List (String × String) :=
  (alookup st.active_rooms room_id).getD []

/-- The usernames of a room's current members in join-insertion order
(`list(active_rooms[room_id].values())`). -/
def roomUsernames (st : ServerState) (room_id : String) : List String :=
  (roomMembers st room_id).map Prod.snd

/-- The message history of a room (`messages[room_id]`), empty when the
room is absent. -/
def roomHistory (st : ServerState) (room_id : String) : List Message :=
  (alookup st.messages room_id).getD []

/-- The `join` event handler `on_join` of `src/app.py` (lines 110-147):
trims and validates the username, lazily creates the room, rejects a
username already present in the room, records the membership, sends the
join confirmation (with member list and last-50 history) to the joiner
and a `user_joined` notice to every other room member, and returns the
synchronous acknowledgment. -/
def on_join (sid username_raw room_id : String) (now : Nat)
    (st : ServerState) : Ack × ServerState × List (String × OutEvent) :=
  let username := pyStrip username_raw
  if username = "" ∨ username.length < 2 ∨ 20 < username.length then
    (Ack.error "Username must be 2-20 characters", st, [])
  else
    let st1 :=
      if (alookup st.active_rooms room_id).isSome then st
      else { st with active_rooms := aset st.active_rooms room_id [],
                     messages := aset st.messages room_id [] }
    let users := (alookup st1.active_rooms room_id).getD []
    if username ∈ users.map Prod.snd then
      (Ack.error "Username already taken", st1, [])
    else
      let users2 := aset users sid username
      let st2 := { st1 with active_rooms := aset st1.active_rooms room_id users2 }
      (Ack.success, st2,
        (sid, OutEvent.join_confirmation username room_id (users2.map Prod.snd)
          (lastN 50 ((alookup st2.messages room_id).getD []))) ::
        (users2.filter (fun p => p.1 ≠ sid)).map (fun p =>
          (p.1, OutEvent.user_joined "System"
            (username ++ " has joined the room") (users2.map Prod.snd) now)))

/-- The `send_message` event handler `handle_message` of `src/app.py`
(lines 149-176): rejects a sender that is not a recorded member of the
room, rejects an empty trimmed text with no attachment, and otherwise
appends a freshly identified message to the room history and broadcasts
it to every room member.  The Python `messages[room_id].append(...)`
presupposes the history key exists; it does for every state whose two
tables are key-aligned (the reachable-state invariant proved below), and
the embedding reads the history with an empty default. -/
def handle_message (sid room_id text_raw : String) (file_info : Option String)
    (now : Nat) (st : ServerState) :
    Ack × ServerState × List (String × OutEvent) :=
  let text := pyStrip text_raw
  if (alookup ((alookup st.active_rooms room_id).getD []) sid).isNone then
    (Ack.error "Not in room", st, [])
  else if text = "" ∧ file_info = none then
    (Ack.error "Message cannot be empty", st, [])
  else
    let username := (alookup ((alookup st.active_rooms room_id).getD []) sid).getD ""
    let m : Message := ⟨st.nextId, username, text, now, file_info⟩
    let st2 : ServerState :=
      { st with
        messages := aset st.messages room_id
          ((alookup st.messages room_id).getD [] ++ [m]),
        nextId := st.nextId + 1 }
    (Ack.success, st2,
      ((alookup st.active_rooms room_id).getD []).map (fun p =>
        (p.1, OutEvent.new_message m)))

/-- The room-sweeping loop of `handle_disconnect` of `src/app.py`
(lines 86-108): walk the rooms in table order; wherever the departing
sid is a member, drop its binding, then either notify the remaining
members with `user_left` or, when the room became empty, delete the room
and its history. -/
def disconnectRooms (sid : String) (now : Nat) :
    List (String × List (String × String)) → List (String × List Message) →
    List (String × List (String × String)) × List (String × List Message)
      × List (String × OutEvent)
  | [], msgs => ([], msgs, [])
  | (room_id, users) :: rest, msgs =>
    match alookup users sid with
    | none =>
      let r := disconnectRooms sid now rest msgs
      ((room_id, users) :: r.1, r.2.1, r.2.2)
    | some username =>
      let users2 := aerase users sid
      if users2.isEmpty then
        let r := disconnectRooms sid now rest (aerase msgs room_id)
        (r.1, r.2.1, r.2.2)
      else
        let r := disconnectRooms sid now rest msgs
        ((room_id, users2) :: r.1, r.2.1,
          users2.map (fun p =>
            (p.1, OutEvent.user_left username
              (username ++ " has left the room") now (users2.map Prod.snd)))
          ++ r.2.2)

/-- The `disconnect` event handler `handle_disconnect` of `src/app.py`
(lines 86-108). -/
def handle_disconnect (sid : String) (now : Nat) (st : ServerState) :
    ServerState × List (String × OutEvent) :=
  let r := disconnectRooms sid now st.active_rooms st.messages
  ({ st with active_rooms := r.1, messages := r.2.1 }, r.2.2)

/-- The best-effort sender-username lookup of `handle_offer`
(`active_rooms.get(data.get('room_id', ''), {}).get(request.sid, 'Someone')`). -/
def senderName (st : ServerState) (room_id sid : String) : String :=
  (alookup ((alookup st.active_rooms room_id).getD []) sid).getD "Someone"

/-- Delivery targets of `emit(..., room=target_sid)`: Socket.IO keeps each
live connection in a personal room named by its own sid, so the event
reaches exactly the target when it is registered and nobody otherwise. -/
def sidRoomMembers (live : List String) (target_sid : String) : List String :=
  if target_sid ∈ live then [target_sid] else []

/-- The `webrtc_offer` relay `handle_offer` of `src/app.py` (lines 179-189). -/
def handle_offer (live : List String) (sid room_id target_sid offer : String)
    (st : ServerState) : List (String × OutEvent) :=
  (sidRoomMembers live target_sid).map (fun t =>
    (t, OutEvent.webrtc_offer offer sid (senderName st room_id sid)))

/-- The `webrtc_answer` relay `handle_answer` of `src/app.py`
(lines 191-199); it consults no room state. -/
def handle_answer (live : List String) (sid target_sid answer : String) :
    List (String × OutEvent) :=
  (sidRoomMembers live target_sid).map (fun t =>
    (t, OutEvent.webrtc_answer answer sid))

/-- The `ice_candidate` relay `handle_ice_candidate` of `src/app.py`
(lines 201-209); it consults no room state. -/
def handle_ice_candidate (live : List String) (sid target_sid candidate : String) :
    List (String × OutEvent) :=
  (sidRoomMembers live target_sid).map (fun t =>
    (t, OutEvent.ice_candidate candidate sid))

/-- An inbound event together with the data the transport layer attaches
to it (originating sid and current clock value). -/
inductive Event where
  | join (sid username room_id : String) (now : Nat)
  | send (sid room_id text : String) (file : Option String) (now : Nat)
  | disconnect (sid : String) (now : Nat)
deriving DecidableEq, Repr

/-- Run one inbound event against the store, returning the new store and
the outbound events pushed out. -/
def stepOut (st : ServerState) : Event → ServerState × List (String × OutEvent)
  | .join sid u rid now => ((on_join sid u rid now st).2.1, (on_join sid u rid now st).2.2)
  | .send sid rid txt f now =>
      ((handle_message sid rid txt f now st).2.1, (handle_message sid rid txt f now st).2.2)
  | .disconnect sid now => handle_disconnect sid now st

/-- The store after one inbound event. -/
def step (st : ServerState) (e : Event) : ServerState := (stepOut st e).1

/-- The store reached by a sequence of inbound events from the empty store. -/
def run (es : List Event) : ServerState := es.foldl step initState

/-- One inbound event applied to a store paired with the outbound events
accumulated so far. -/
def stepAcc (acc : ServerState × List (String × OutEvent)) (e : Event) :
    ServerState × List (String × OutEvent) :=
  ((stepOut acc.1 e).1, acc.2 ++ (stepOut acc.1 e).2)

/-- The store and the accumulated outbound events of a whole run. -/
def runOuts (es : List Event) : ServerState × List (String × OutEvent) :=
  es.foldl stepAcc (initState, [])

/-! ### Association-list lemmas -/

theorem alookup_eq_none_iff {β : Type} (l : List (String × β)) (key : String) :
    alookup l key = none ↔ ∀ p ∈ l, p.1 ≠ key := by
  induction l with
  | nil => simp [alookup]
  | cons hd tl ih =>
    obtain ⟨k, v⟩ := hd
    by_cases hk : k = key <;> simp [alookup, hk, ih]

theorem alookup_aset {β : Type} (l : List (String × β)) (k key : String) (v : β) :
    alookup (aset l k v) key = if key = k then some v else alookup l key := by
  induction l with
  | nil =>
    by_cases h2 : key = k
    · subst h2
      simp [aset, alookup]
    · have h3 : ¬ k = key := fun hc => h2 hc.symm
      simp [aset, alookup, h2, h3]
  | cons hd tl ih =>
    obtain ⟨k1, v1⟩ := hd
    by_cases h1 : k1 = k
    · by_cases h2 : key = k
      · subst h2
        subst h1
        simp [aset, alookup]
      · have h3 : ¬ k1 = key := by
          intro hc
          exact h2 (by rw [← hc, h1])
        have h4 : ¬ k = key := fun hc => h2 hc.symm
        simp [aset, alookup, h1, h2, h3, h4]
    · by_cases h2 : k1 = key
      · have h3 : ¬ key = k := by
          intro hc
          exact h1 (h2.trans hc)
        simp [aset, alookup, h1, h2, h3]
      · simp [aset, alookup, h1, h2, ih]

theorem alookup_aset_self {β : Type} (l : List (String × β)) (k : String) (v : β) :
    alookup (aset l k v) k = some v := by
  simp [alookup_aset]

theorem alookup_aset_ne {β : Type} (l : List (String × β)) (k key : String) (v : β)
    (h : key ≠ k) : alookup (aset l k v) key = alookup l key := by
  simp [alookup_aset, h]

theorem alookup_some_mem {β : Type} (l : List (String × β)) (key : String) (v : β)
    (h : alookup l key = some v) : (key, v) ∈ l := by
  induction l with
  | nil => simp [alookup] at h
  | cons hd tl ih =>
    obtain ⟨k1, v1⟩ := hd
    by_cases h1 : k1 = key
    · subst h1
      simp [alookup] at h
      simp [h]
    · simp [alookup, h1] at h
      exact List.mem_cons_of_mem _ (ih h)

theorem aset_keys_some {β : Type} (l : List (String × β)) (k : String) (v : β)
    (h : (alookup l k).isSome) : (aset l k v).map Prod.fst = l.map Prod.fst := by
  induction l with
  | nil => simp [alookup] at h
  | cons hd tl ih =>
    obtain ⟨k1, v1⟩ := hd
    by_cases h1 : k1 = k
    · subst h1
      simp [aset]
    · have h2 : (alookup tl k).isSome := by
        simpa [alookup, h1] using h
      simp [aset, h1, ih h2]

theorem aset_keys_none {β : Type} (l : List (String × β)) (k : String) (v : β)
    (h : alookup l k = none) : (aset l k v).map Prod.fst = l.map Prod.fst ++ [k] := by
  induction l with
  | nil => simp [aset]
  | cons hd tl ih =>
    obtain ⟨k1, v1⟩ := hd
    have h1 : ¬ k1 = k := by
      intro hc
      simp [alookup, hc] at h
    have h2 : alookup tl k = none := by
      simpa [alookup, h1] using h
    simp [aset, h1, ih h2]

theorem alookup_aerase_self {β : Type} (l : List (String × β)) (k : String) :
    alookup (aerase l k) k = none := by
  rw [alookup_eq_none_iff]
  intro p hp
  have := List.of_mem_filter hp
  simpa using this

theorem alookup_aerase_ne {β : Type} (l : List (String × β)) (k key : String)
    (h : key ≠ k) : alookup (aerase l k) key = alookup l key := by
  induction l with
  | nil => simp [aerase, alookup]
  | cons hd tl ih =>
    obtain ⟨k1, v1⟩ := hd
    by_cases h1 : k1 = k
    · have h2 : ¬ k1 = key := by
        intro hc
        exact h (by rw [← hc, h1])
      have h3 : ¬ k = key := fun hc => h hc.symm
      simpa [aerase, List.filter_cons, alookup, h1, h2, h3] using ih
    · by_cases h2 : k1 = key
      · simp [aerase, List.filter_cons, alookup, h1, h2, h]
      · simpa [aerase, List.filter_cons, alookup, h1, h2] using ih

theorem alookup_isSome_of_aerase_nil {β : Type} (l : List (String × β)) (k : String)
    (hne : l ≠ []) (h : aerase l k = []) : (alookup l k).isSome := by
  cases l with
  | nil => exact absurd rfl hne
  | cons hd tl =>
    obtain ⟨k1, v1⟩ := hd
    have h1 : k1 = k := by
      by_contra hc
      simp [aerase, List.filter_cons, hc] at h
    simp [alookup, h1]

theorem aset_ne_nil {β : Type} (l : List (String × β)) (k : String) (v : β) :
    aset l k v ≠ [] := by
  cases l with
  | nil => simp [aset]
  | cons hd tl =>
    obtain ⟨k1, v1⟩ := hd
    by_cases h1 : k1 = k <;> simp [aset, h1]

theorem alookup_eq_none_iff_not_mem_keys {β : Type} (l : List (String × β))
    (k : String) : alookup l k = none ↔ k ∉ l.map Prod.fst := by
  rw [alookup_eq_none_iff]
  constructor
  · intro h hmem
    obtain ⟨p, hp, hpk⟩ := List.mem_map.mp hmem
    exact h p hp hpk
  · intro h p hp hpk
    exact h (List.mem_map.mpr ⟨p, hp, hpk⟩)

/-! ### Behaviour of the disconnect sweep -/

/-- What the disconnect sweep does to one room's members dict: `none` when
removing the sid empties the room (so the room is deleted), otherwise the
surviving members dict. -/
def purge (sid : String) (users : List (String × String)) :
    Option (List (String × String)) :=
  match alookup users sid with
  | none => some users
  | some _ => if (aerase users sid).isEmpty then none else some (aerase users sid)

theorem disconnect_keys_sublist (sid : String) (now : Nat)
    (rooms : List (String × List (String × String)))
    (msgs : List (String × List Message)) :
    ((disconnectRooms sid now rooms msgs).1.map Prod.fst).Sublist
      (rooms.map Prod.fst) := by
  induction rooms generalizing msgs with
  | nil => simp [disconnectRooms]
  | cons hd tl ih =>
    obtain ⟨rid, users⟩ := hd
    rcases h3 : alookup users sid with _ | uname
    · simpa [disconnectRooms, h3] using (ih msgs).cons₂ rid
    · by_cases h4 : aerase users sid = []
      · simpa [disconnectRooms, h3, List.isEmpty_iff, h4] using (ih (aerase msgs rid)).cons rid
      · simpa [disconnectRooms, h3, List.isEmpty_iff, h4] using (ih msgs).cons₂ rid

theorem disconnect_lookup_none (sid : String) (now : Nat)
    (rooms : List (String × List (String × String)))
    (msgs : List (String × List Message)) (k : String)
    (h : alookup rooms k = none) :
    alookup (disconnectRooms sid now rooms msgs).1 k = none := by
  rw [alookup_eq_none_iff_not_mem_keys] at h ⊢
  intro hm
  exact h ((disconnect_keys_sublist sid now rooms msgs).subset hm)

theorem disconnect_lookup (sid : String) (now : Nat)
    (rooms : List (String × List (String × String)))
    (msgs : List (String × List Message)) (k : String)
    (hnd : (rooms.map Prod.fst).Nodup) :
    alookup (disconnectRooms sid now rooms msgs).1 k
      = (alookup rooms k).bind (purge sid) := by
  induction rooms generalizing msgs with
  | nil => simp [disconnectRooms, alookup]
  | cons hd tl ih =>
    obtain ⟨rid, users⟩ := hd
    have hnd2 : (tl.map Prod.fst).Nodup := (List.nodup_cons.mp hnd).2
    have hrid : rid ∉ tl.map Prod.fst := (List.nodup_cons.mp hnd).1
    by_cases hk : rid = k
    · subst hk
      have htl : alookup tl rid = none :=
        (alookup_eq_none_iff_not_mem_keys tl rid).mpr hrid
      rcases h3 : alookup users sid with _ | uname
      · simp [disconnectRooms, h3, alookup, purge]
      · by_cases h4 : aerase users sid = []
        · simp [disconnectRooms, h3, List.isEmpty_iff, h4, alookup, purge,
            disconnect_lookup_none sid now tl (aerase msgs rid) rid htl]
        · simp [disconnectRooms, h3, List.isEmpty_iff, h4, alookup, purge]
    · rcases h3 : alookup users sid with _ | uname
      · simp [disconnectRooms, h3, alookup, hk, ih _ hnd2]
      · by_cases h4 : aerase users sid = []
        · simp [disconnectRooms, h3, List.isEmpty_iff, h4, alookup, hk, ih _ hnd2]
        · simp [disconnectRooms, h3, List.isEmpty_iff, h4, alookup, hk, ih _ hnd2]

theorem disconnect_msgs_of_no_room (sid : String) (now : Nat)
    (rooms : List (String × List (String × String)))
    (msgs : List (String × List Message)) (k : String)
    (h : alookup rooms k = none) :
    alookup (disconnectRooms sid now rooms msgs).2.1 k = alookup msgs k := by
  induction rooms generalizing msgs with
  | nil => simp [disconnectRooms]
  | cons hd tl ih =>
    obtain ⟨rid, users⟩ := hd
    have h1 : ¬ rid = k := by
      intro hc
      simp [alookup, hc] at h
    have h2 : alookup tl k = none := by
      simpa [alookup, h1] using h
    rcases h3 : alookup users sid with _ | uname
    · simp [disconnectRooms, h3, ih _ h2]
    · by_cases h4 : aerase users sid = []
      · have h5 : alookup (aerase msgs rid) k = alookup msgs k :=
          alookup_aerase_ne msgs rid k (fun hc => h1 hc.symm)
        simp [disconnectRooms, h3, List.isEmpty_iff, h4, ih _ h2, h5]
      · simp [disconnectRooms, h3, List.isEmpty_iff, h4, ih _ h2]

theorem disconnect_msgs_lookup (sid : String) (now : Nat)
    (rooms : List (String × List (String × String)))
    (msgs : List (String × List Message)) (k : String)
    (hnd : (rooms.map Prod.fst).Nodup) :
    alookup (disconnectRooms sid now rooms msgs).2.1 k =
      match alookup rooms k with
      | none => alookup msgs k
      | some users =>
        match purge sid users with
        | none => none
        | some _ => alookup msgs k := by
  induction rooms generalizing msgs with
  | nil => simp [disconnectRooms, alookup]
  | cons hd tl ih =>
    obtain ⟨rid, users⟩ := hd
    have hnd2 : (tl.map Prod.fst).Nodup := (List.nodup_cons.mp hnd).2
    have hrid : rid ∉ tl.map Prod.fst := (List.nodup_cons.mp hnd).1
    by_cases hk : rid = k
    · subst hk
      have htl : alookup tl rid = none :=
        (alookup_eq_none_iff_not_mem_keys tl rid).mpr hrid
      rcases h3 : alookup users sid with _ | uname
      · simp [disconnectRooms, h3, alookup, purge,
          disconnect_msgs_of_no_room sid now tl msgs rid htl]
      · by_cases h4 : aerase users sid = []
        · simp [disconnectRooms, h3, List.isEmpty_iff, h4, alookup, purge,
            disconnect_msgs_of_no_room sid now tl (aerase msgs rid) rid htl,
            alookup_aerase_self msgs rid]
        · simp [disconnectRooms, h3, List.isEmpty_iff, h4, alookup, purge,
            disconnect_msgs_of_no_room sid now tl msgs rid htl]
    · rcases h3 : alookup users sid with _ | uname
      · simp [disconnectRooms, h3, alookup, hk, ih _ hnd2]
      · by_cases h4 : aerase users sid = []
        · have h5 : alookup (aerase msgs rid) k = alookup msgs k :=
            alookup_aerase_ne msgs rid k (fun hc => hk hc.symm)
          simp [disconnectRooms, h3, List.isEmpty_iff, h4, alookup, hk, ih _ hnd2, h5]
        · simp [disconnectRooms, h3, List.isEmpty_iff, h4, alookup, hk, ih _ hnd2]

theorem purge_ne_nil (sid : String) (users w : List (String × String))
    (hw : purge sid users = some w) (hu : users ≠ []) : w ≠ [] := by
  unfold purge at hw
  rcases h3 : alookup users sid with _ | uname
  · simp [h3] at hw
    subst hw
    exact hu
  · by_cases h4 : aerase users sid = []
    · simp [h3, h4] at hw
    · simp [h3, h4] at hw
      subst hw
      simpa [List.isEmpty_iff] using h4

theorem disconnect_events_no_new_message (sid : String) (now : Nat)
    (rooms : List (String × List (String × String)))
    (msgs : List (String × List Message)) :
    ∀ p ∈ (disconnectRooms sid now rooms msgs).2.2, ∀ m : Message,
      p.2 ≠ OutEvent.new_message m := by
  induction rooms generalizing msgs with
  | nil => simp [disconnectRooms]
  | cons hd tl ih =>
    obtain ⟨rid, users⟩ := hd
    intro p hp m
    rcases h3 : alookup users sid with _ | uname
    · rw [disconnectRooms] at hp
      simp only [h3] at hp
      exact ih msgs p hp m
    · cases h4 : (aerase users sid).isEmpty with
      | true =>
        rw [disconnectRooms] at hp
        simp only [h3, h4, if_true] at hp
        exact ih (aerase msgs rid) p hp m
      | false =>
        rw [disconnectRooms] at hp
        simp only [h3, h4, Bool.false_eq_true, if_false, List.mem_append] at hp
        rcases hp with hp | hp
        · obtain ⟨q, _, hq⟩ := List.mem_map.mp hp
          rw [← hq]
          simp
        · exact ih msgs p hp m

/-! ### The reachable-state invariant -/

/-- The well-formedness invariant of the store: room keys are unique, no
room in the store is empty, and the membership table and the history
table hold exactly the same room keys. -/
def Inv (st : ServerState) : Prop :=
  (st.active_rooms.map Prod.fst).Nodup ∧
  (∀ k users, alookup st.active_rooms k = some users → users ≠ []) ∧
  (∀ k, (alookup st.active_rooms k).isSome ↔ (alookup st.messages k).isSome)

theorem Inv_initState : Inv initState := by
  refine ⟨by simp [initState], ?_, ?_⟩
  · intro k users h
    simp [initState, alookup] at h
  · intro k
    simp [initState, alookup]

/-! ### Shape of the handler results, case by case -/

theorem on_join_invalid (sid u rid : String) (now : Nat) (st : ServerState)
    (hv : pyStrip u = "" ∨ (pyStrip u).length < 2 ∨ 20 < (pyStrip u).length) :
    on_join sid u rid now st =
      (Ack.error "Username must be 2-20 characters", st, []) := by
  simp only [on_join]
  rw [if_pos hv]

theorem on_join_taken (sid u rid : String) (now : Nat) (st : ServerState)
    (hv : ¬ (pyStrip u = "" ∨ (pyStrip u).length < 2 ∨ 20 < (pyStrip u).length))
    (hroom : (alookup st.active_rooms rid).isSome = true)
    (ht : pyStrip u ∈ ((alookup st.active_rooms rid).getD []).map Prod.snd) :
    on_join sid u rid now st = (Ack.error "Username already taken", st, []) := by
  simp only [on_join]
  rw [if_neg hv, if_pos hroom, if_pos ht]

theorem on_join_success_existing (sid u rid : String) (now : Nat) (st : ServerState)
    (hv : ¬ (pyStrip u = "" ∨ (pyStrip u).length < 2 ∨ 20 < (pyStrip u).length))
    (hroom : (alookup st.active_rooms rid).isSome = true)
    (ht : pyStrip u ∉ ((alookup st.active_rooms rid).getD []).map Prod.snd) :
    on_join sid u rid now st =
      (Ack.success,
       { st with
           active_rooms :=
             aset st.active_rooms rid
               (aset ((alookup st.active_rooms rid).getD []) sid (pyStrip u)) },
       (sid, OutEvent.join_confirmation (pyStrip u) rid
          ((aset ((alookup st.active_rooms rid).getD []) sid (pyStrip u)).map Prod.snd)
          (lastN 50 ((alookup st.messages rid).getD []))) ::
       ((aset ((alookup st.active_rooms rid).getD []) sid (pyStrip u)).filter
          (fun p => p.1 ≠ sid)).map (fun p =>
          (p.1, OutEvent.user_joined "System" (pyStrip u ++ " has joined the room")
            ((aset ((alookup st.active_rooms rid).getD []) sid (pyStrip u)).map
              Prod.snd) now))) := by
  simp only [on_join]
  rw [if_neg hv, if_pos hroom, if_neg ht]

theorem on_join_fresh (sid u rid : String) (now : Nat) (st : ServerState)
    (hv : ¬ (pyStrip u = "" ∨ (pyStrip u).length < 2 ∨ 20 < (pyStrip u).length))
    (hroom : alookup st.active_rooms rid = none) :
    on_join sid u rid now st =
      (Ack.success,
       { st with
           active_rooms := aset (aset st.active_rooms rid []) rid [(sid, pyStrip u)],
           messages := aset st.messages rid [] },
       [(sid, OutEvent.join_confirmation (pyStrip u) rid [pyStrip u] [])]) := by
  have hroomb : ¬ (alookup st.active_rooms rid).isSome = true := by simp [hroom]
  simp only [on_join]
  rw [if_neg hv, if_neg hroomb]
  simp [alookup_aset_self, aset, lastN]

theorem handle_message_not_in_room (sid rid txt : String) (f : Option String)
    (now : Nat) (st : ServerState)
    (h : alookup ((alookup st.active_rooms rid).getD []) sid = none) :
    handle_message sid rid txt f now st = (Ack.error "Not in room", st, []) := by
  simp only [handle_message]
  rw [if_pos (by simp [h])]

theorem handle_message_empty (sid rid txt : String) (f : Option String)
    (now : Nat) (st : ServerState) (uname : String)
    (hm : alookup ((alookup st.active_rooms rid).getD []) sid = some uname)
    (he : pyStrip txt = "" ∧ f = none) :
    handle_message sid rid txt f now st =
      (Ack.error "Message cannot be empty", st, []) := by
  simp only [handle_message]
  rw [if_neg (by simp [hm]), if_pos he]

theorem handle_message_success (sid rid txt : String) (f : Option String)
    (now : Nat) (st : ServerState) (uname : String)
    (hm : alookup ((alookup st.active_rooms rid).getD []) sid = some uname)
    (he : ¬ (pyStrip txt = "" ∧ f = none)) :
    handle_message sid rid txt f now st =
      (Ack.success,
       { st with
           messages := aset st.messages rid
             ((alookup st.messages rid).getD []
               ++ [⟨st.nextId, uname, pyStrip txt, now, f⟩]),
           nextId := st.nextId + 1 },
       ((alookup st.active_rooms rid).getD []).map (fun p =>
         (p.1, OutEvent.new_message ⟨st.nextId, uname, pyStrip txt, now, f⟩))) := by
  simp only [handle_message]
  rw [if_neg (by simp [hm]), if_neg he]
  simp [hm]

theorem member_implies_room (st : ServerState) (rid sid uname : String)
    (hm : alookup ((alookup st.active_rooms rid).getD []) sid = some uname) :
    (alookup st.active_rooms rid).isSome = true := by
  rcases hr : alookup st.active_rooms rid with _ | users0
  · rw [hr] at hm
    simp [alookup] at hm
  · simp

theorem Inv_on_join (sid u rid : String) (now : Nat) (st : ServerState)
    (h : Inv st) : Inv (on_join sid u rid now st).2.1 := by
  obtain ⟨hnd, hne, hal⟩ := h
  by_cases hv : pyStrip u = "" ∨ (pyStrip u).length < 2 ∨ 20 < (pyStrip u).length
  · rw [on_join_invalid sid u rid now st hv]
    exact ⟨hnd, hne, hal⟩
  · rcases hroom : alookup st.active_rooms rid with _ | users0
    · rw [on_join_fresh sid u rid now st hv hroom]
      have hkeys : (aset (aset st.active_rooms rid []) rid
          [(sid, pyStrip u)]).map Prod.fst = st.active_rooms.map Prod.fst ++ [rid] := by
        rw [aset_keys_some, aset_keys_none st.active_rooms rid [] hroom]
        simp [alookup_aset_self]
      have hrnotin : rid ∉ st.active_rooms.map Prod.fst :=
        (alookup_eq_none_iff_not_mem_keys st.active_rooms rid).mp hroom
      refine ⟨?_, ?_, ?_⟩
      · rw [hkeys]
        rw [List.nodup_append]
        exact ⟨hnd, List.nodup_singleton rid, by simpa using hrnotin⟩
      · intro k us hk
        by_cases hkr : k = rid
        · subst hkr
          rw [alookup_aset_self] at hk
          simp at hk
          rw [← hk]
          simp
        · rw [alookup_aset_ne _ _ _ _ hkr, alookup_aset_ne _ _ _ _ hkr] at hk
          exact hne k us hk
      · intro k
        by_cases hkr : k = rid
        · subst hkr
          simp [alookup_aset_self]
        · rw [alookup_aset_ne _ _ _ _ hkr, alookup_aset_ne _ _ _ _ hkr,
            alookup_aset_ne _ _ _ _ hkr]
          exact hal k
    · have hroomb : (alookup st.active_rooms rid).isSome = true := by simp [hroom]
      by_cases ht : pyStrip u ∈ ((alookup st.active_rooms rid).getD []).map Prod.snd
      · rw [on_join_taken sid u rid now st hv hroomb ht]
        exact ⟨hnd, hne, hal⟩
      · rw [on_join_success_existing sid u rid now st hv hroomb ht]
        refine ⟨?_, ?_, ?_⟩
        · rw [aset_keys_some _ _ _ hroomb]
          exact hnd
        · intro k us hk
          by_cases hkr : k = rid
          · subst hkr
            rw [alookup_aset_self] at hk
            rw [← Option.some_inj.mp hk]
            exact aset_ne_nil _ _ _
          · rw [alookup_aset_ne _ _ _ _ hkr] at hk
            exact hne k us hk
        · intro k
          by_cases hkr : k = rid
          · subst hkr
            simp only [alookup_aset_self, Option.isSome_some, true_iff]
            exact (hal _).mp hroomb
          · rw [alookup_aset_ne _ _ _ _ hkr]
            exact hal k

theorem Inv_handle_message (sid rid txt : String) (f : Option String) (now : Nat)
    (st : ServerState) (h : Inv st) : Inv (handle_message sid rid txt f now st).2.1 := by
  obtain ⟨hnd, hne, hal⟩ := h
  rcases hm : alookup ((alookup st.active_rooms rid).getD []) sid with _ | uname
  · rw [handle_message_not_in_room sid rid txt f now st hm]
    exact ⟨hnd, hne, hal⟩
  · by_cases he : pyStrip txt = "" ∧ f = none
    · rw [handle_message_empty sid rid txt f now st uname hm he]
      exact ⟨hnd, hne, hal⟩
    · rw [handle_message_success sid rid txt f now st uname hm he]
      refine ⟨hnd, hne, ?_⟩
      intro k
      by_cases hkr : k = rid
      · subst hkr
        simp only [alookup_aset_self, Option.isSome_some, iff_true]
        exact member_implies_room _ _ _ _ hm
      · rw [alookup_aset_ne _ _ _ _ hkr]
        exact hal k

theorem Inv_handle_disconnect (sid : String) (now : Nat) (st : ServerState)
    (h : Inv st) : Inv (handle_disconnect sid now st).1 := by
  obtain ⟨hnd, hne, hal⟩ := h
  refine ⟨?_, ?_, ?_⟩
  · exact List.Nodup.sublist
      (disconnect_keys_sublist sid now st.active_rooms st.messages) hnd
  · intro k us hk
    rw [show (handle_disconnect sid now st).1.active_rooms
        = (disconnectRooms sid now st.active_rooms st.messages).1 from rfl] at hk
    rw [disconnect_lookup sid now st.active_rooms st.messages k hnd] at hk
    rcases hr : alookup st.active_rooms k with _ | users0
    · simp [hr] at hk
    · rw [hr] at hk
      exact purge_ne_nil sid users0 us hk (hne k users0 hr)
  · intro k
    rw [show (handle_disconnect sid now st).1.active_rooms
        = (disconnectRooms sid now st.active_rooms st.messages).1 from rfl,
      show (handle_disconnect sid now st).1.messages
        = (disconnectRooms sid now st.active_rooms st.messages).2.1 from rfl,
      disconnect_lookup sid now st.active_rooms st.messages k hnd,
      disconnect_msgs_lookup sid now st.active_rooms st.messages k hnd]
    rcases hr : alookup st.active_rooms k with _ | users0
    · have hmk : alookup st.messages k = none := by
        have h2 := hal k
        rw [hr] at h2
        simp at h2
        rcases h3 : alookup st.messages k with _ | w
        · rfl
        · rw [h3] at h2
          simp at h2
      simp [hmk]
    · rcases hp : purge sid users0 with _ | us
      · simp [hp]
      · have h2 := hal k
        rw [hr] at h2
        simp at h2
        simp [hp, h2]

theorem Inv_step (st : ServerState) (e : Event) (h : Inv st) : Inv (step st e) := by
  cases e with
  | join sid u rid now => exact Inv_on_join sid u rid now st h
  | send sid rid txt f now => exact Inv_handle_message sid rid txt f now st h
  | disconnect sid now => exact Inv_handle_disconnect sid now st h

theorem foldl_step_preserve (P : ServerState → Prop)
    (hstep : ∀ st e, P st → P (step st e)) :
    ∀ (es : List Event) (st : ServerState), P st → P (es.foldl step st)
  | [], _, h => h
  | e :: es, st, h => foldl_step_preserve P hstep es (step st e) (hstep st e h)

theorem Inv_run (es : List Event) : Inv (run es) :=
  foldl_step_preserve Inv Inv_step es initState Inv_initState

/-! ### Freshness of message ids -/

theorem on_join_nextId (sid u rid : String) (now : Nat) (st : ServerState) :
    (on_join sid u rid now st).2.1.nextId = st.nextId := by
  by_cases hv : pyStrip u = "" ∨ (pyStrip u).length < 2 ∨ 20 < (pyStrip u).length
  · rw [on_join_invalid sid u rid now st hv]
  · rcases hroom : alookup st.active_rooms rid with _ | users0
    · rw [on_join_fresh sid u rid now st hv hroom]
    · have hroomb : (alookup st.active_rooms rid).isSome = true := by simp [hroom]
      by_cases ht : pyStrip u ∈ ((alookup st.active_rooms rid).getD []).map Prod.snd
      · rw [on_join_taken sid u rid now st hv hroomb ht]
      · rw [on_join_success_existing sid u rid now st hv hroomb ht]

theorem step_nextId_mono (st : ServerState) (e : Event) :
    st.nextId ≤ (step st e).nextId := by
  cases e with
  | join sid u rid now =>
    rw [show (step st (Event.join sid u rid now)).nextId
        = (on_join sid u rid now st).2.1.nextId from rfl, on_join_nextId]
  | send sid rid txt f now =>
    rcases hm : alookup ((alookup st.active_rooms rid).getD []) sid with _ | uname
    · rw [show step st (Event.send sid rid txt f now)
          = (handle_message sid rid txt f now st).2.1 from rfl,
        handle_message_not_in_room sid rid txt f now st hm]
    · by_cases he : pyStrip txt = "" ∧ f = none
      · rw [show step st (Event.send sid rid txt f now)
            = (handle_message sid rid txt f now st).2.1 from rfl,
          handle_message_empty sid rid txt f now st uname hm he]
      · rw [show step st (Event.send sid rid txt f now)
            = (handle_message sid rid txt f now st).2.1 from rfl,
          handle_message_success sid rid txt f now st uname hm he]
        exact Nat.le_succ _
  | disconnect sid now => exact Nat.le_refl _

theorem on_join_no_new_message (sid u rid : String) (now : Nat) (st : ServerState) :
    ∀ p ∈ (on_join sid u rid now st).2.2, ∀ m : Message,
      p.2 ≠ OutEvent.new_message m := by
  by_cases hv : pyStrip u = "" ∨ (pyStrip u).length < 2 ∨ 20 < (pyStrip u).length
  · rw [on_join_invalid sid u rid now st hv]
    simp
  · rcases hroom : alookup st.active_rooms rid with _ | users0
    · rw [on_join_fresh sid u rid now st hv hroom]
      simp
    · have hroomb : (alookup st.active_rooms rid).isSome = true := by simp [hroom]
      by_cases ht : pyStrip u ∈ ((alookup st.active_rooms rid).getD []).map Prod.snd
      · rw [on_join_taken sid u rid now st hv hroomb ht]
        simp
      · rw [on_join_success_existing sid u rid now st hv hroomb ht]
        intro p hp m
        rcases List.mem_cons.mp hp with h | h
        · subst h
          simp
        · obtain ⟨q, _, hq⟩ := List.mem_map.mp h
          rw [← hq]
          simp

theorem stepOut_new_ids (st : ServerState) (e : Event) :
    ∀ p ∈ (stepOut st e).2, ∀ m : Message,
      p.2 = OutEvent.new_message m → m.id < (step st e).nextId := by
  cases e with
  | join sid u rid now =>
    intro p hp m hm
    exact absurd hm (on_join_no_new_message sid u rid now st p hp m)
  | send sid rid txt f now =>
    rcases hmem : alookup ((alookup st.active_rooms rid).getD []) sid with _ | uname
    · rw [show (stepOut st (Event.send sid rid txt f now)).2
          = (handle_message sid rid txt f now st).2.2 from rfl,
        handle_message_not_in_room sid rid txt f now st hmem]
      simp
    · by_cases he : pyStrip txt = "" ∧ f = none
      · rw [show (stepOut st (Event.send sid rid txt f now)).2
            = (handle_message sid rid txt f now st).2.2 from rfl,
          handle_message_empty sid rid txt f now st uname hmem he]
        simp
      · rw [show (stepOut st (Event.send sid rid txt f now)).2
            = (handle_message sid rid txt f now st).2.2 from rfl,
          show step st (Event.send sid rid txt f now)
            = (handle_message sid rid txt f now st).2.1 from rfl,
          handle_message_success sid rid txt f now st uname hmem he]
        intro p hp m hm
        obtain ⟨q, _, hq⟩ := List.mem_map.mp hp
        rw [← hq] at hm
        simp at hm
        rw [← hm]
        simp
  | disconnect sid now =>
    intro p hp m hm
    exact absurd hm
      (disconnect_events_no_new_message sid now st.active_rooms st.messages p hp m)

/-- Every broadcast `new_message` in the accumulated outbound events has
an id strictly below the store's fresh-id counter. -/
def IdsBound (st : ServerState) (outs : List (String × OutEvent)) : Prop :=
  ∀ p ∈ outs, ∀ m : Message, p.2 = OutEvent.new_message m → m.id < st.nextId

theorem stepAcc_idsBound (st : ServerState) (outs : List (String × OutEvent))
    (e : Event) (h : IdsBound st outs) :
    IdsBound (stepAcc (st, outs) e).1 (stepAcc (st, outs) e).2 := by
  intro p hp m hm
  rw [show (stepAcc (st, outs) e).2 = outs ++ (stepOut st e).2 from rfl,
    List.mem_append] at hp
  rcases hp with hp | hp
  · exact lt_of_lt_of_le (h p hp m hm) (step_nextId_mono st e)
  · exact stepOut_new_ids st e p hp m hm

theorem foldl_idsBound :
    ∀ (es : List Event) (acc : ServerState × List (String × OutEvent)),
      IdsBound acc.1 acc.2 →
      IdsBound (es.foldl stepAcc acc).1 (es.foldl stepAcc acc).2
  | [], _, h => h
  | e :: es, acc, h =>
    foldl_idsBound es (stepAcc acc e)
      (by
        obtain ⟨st, outs⟩ := acc
        exact stepAcc_idsBound st outs e h)

theorem runOuts_idsBound (es : List Event) :
    IdsBound (runOuts es).1 (runOuts es).2 :=
  foldl_idsBound es (initState, []) (by intro p hp; simp at hp)

theorem runOuts_fst :
    ∀ (es : List Event) (st : ServerState) (outs : List (String × OutEvent)),
      (es.foldl stepAcc (st, outs)).1 = es.foldl step st
  | [], _, _ => rfl
  | e :: es, st, outs => runOuts_fst es (step st e) (outs ++ (stepOut st e).2)

theorem runOuts_fst_run (es : List Event) : (runOuts es).1 = run es :=
  runOuts_fst es initState []

/-! ### The claims -/

/-- C4: the join handler returns the invalid-username error exactly when the
stripped username's length lies outside [2,20]; otherwise it returns the
username-taken error exactly when the stripped username is already, by
case-sensitive exact string match, a member username of the target room;
otherwise it returns success. -/
theorem C4_join_validation (sid u rid : String) (now : Nat) (st : ServerState) :
    ((on_join sid u rid now st).1 = Ack.error "Username must be 2-20 characters"
      ↔ ((pyStrip u).length < 2 ∨ 20 < (pyStrip u).length)) ∧
    ((on_join sid u rid now st).1 = Ack.error "Username already taken"
      ↔ (2 ≤ (pyStrip u).length ∧ (pyStrip u).length ≤ 20 ∧
          pyStrip u ∈ roomUsernames st rid)) ∧
    ((on_join sid u rid now st).1 = Ack.success
      ↔ (2 ≤ (pyStrip u).length ∧ (pyStrip u).length ≤ 20 ∧
          pyStrip u ∉ roomUsernames st rid)) := by
  have hempty : pyStrip u = "" → (pyStrip u).length < 2 := by
    intro h
    rw [h]
    decide
  by_cases hv : pyStrip u = "" ∨ (pyStrip u).length < 2 ∨ 20 < (pyStrip u).length
  · have hlen : (pyStrip u).length < 2 ∨ 20 < (pyStrip u).length := by
      rcases hv with h | h | h
      · exact Or.inl (hempty h)
      · exact Or.inl h
      · exact Or.inr h
    rw [on_join_invalid sid u rid now st hv]
    refine ⟨iff_of_true rfl hlen, iff_of_false (by simp) ?_, iff_of_false (by simp) ?_⟩
    · rintro ⟨h1, h2, _⟩
      rcases hlen with h | h <;> omega
    · rintro ⟨h1, h2, _⟩
      rcases hlen with h | h <;> omega
  · have hlen2 : 2 ≤ (pyStrip u).length ∧ (pyStrip u).length ≤ 20 := by
      push_neg at hv
      omega
    rcases hroom : alookup st.active_rooms rid with _ | users0
    · rw [on_join_fresh sid u rid now st hv hroom]
      have husers : roomUsernames st rid = [] := by
        simp [roomUsernames, roomMembers, hroom]
      refine ⟨iff_of_false (by simp) ?_, iff_of_false (by simp) ?_,
        iff_of_true rfl ⟨hlen2.1, hlen2.2, by simp [husers]⟩⟩
      · rintro (h | h) <;> omega
      · rintro ⟨_, _, hmem⟩
        rw [husers] at hmem
        exact absurd hmem (List.not_mem_nil _)
    · have hroomb : (alookup st.active_rooms rid).isSome = true := by simp [hroom]
      by_cases ht : pyStrip u ∈ ((alookup st.active_rooms rid).getD []).map Prod.snd
      · rw [on_join_taken sid u rid now st hv hroomb ht]
        refine ⟨iff_of_false (by simp) ?_, iff_of_true rfl ⟨hlen2.1, hlen2.2, ht⟩,
          iff_of_false (by simp) ?_⟩
        · rintro (h | h) <;> omega
        · rintro ⟨_, _, hnm⟩
          exact hnm ht
      · rw [on_join_success_existing sid u rid now st hv hroomb ht]
        refine ⟨iff_of_false (by simp) ?_, iff_of_false (by simp) ?_,
          iff_of_true rfl ⟨hlen2.1, hlen2.2, ht⟩⟩
        · rintro (h | h) <;> omega
        · rintro ⟨_, _, hmem⟩
          exact ht hmem

/-- C5: the send handler returns the not-in-room error exactly when the sending
connection is not a recorded member of the given room; otherwise it returns the
empty-message error exactly when the stripped text is empty and no attachment
descriptor is present; otherwise it returns success. -/
theorem C5_send_validation (sid rid txt : String) (f : Option String) (now : Nat)
    (st : ServerState) :
    ((handle_message sid rid txt f now st).1 = Ack.error "Not in room"
      ↔ alookup (roomMembers st rid) sid = none) ∧
    ((handle_message sid rid txt f now st).1 = Ack.error "Message cannot be empty"
      ↔ ((alookup (roomMembers st rid) sid).isSome ∧ pyStrip txt = "" ∧ f = none)) ∧
    ((handle_message sid rid txt f now st).1 = Ack.success
      ↔ ((alookup (roomMembers st rid) sid).isSome ∧
          (pyStrip txt ≠ "" ∨ f ≠ none))) := by
  rcases hm : alookup ((alookup st.active_rooms rid).getD []) sid with _ | uname
  · rw [handle_message_not_in_room sid rid txt f now st hm]
    refine ⟨iff_of_true rfl hm, iff_of_false (by simp) ?_, iff_of_false (by simp) ?_⟩
    · rintro ⟨hs, _⟩
      rw [show roomMembers st rid = (alookup st.active_rooms rid).getD [] from rfl,
        hm] at hs
      simp at hs
    · rintro ⟨hs, _⟩
      rw [show roomMembers st rid = (alookup st.active_rooms rid).getD [] from rfl,
        hm] at hs
      simp at hs
  · have hs : (alookup (roomMembers st rid) sid).isSome := by
      rw [show roomMembers st rid = (alookup st.active_rooms rid).getD [] from rfl, hm]
      simp
    by_cases he : pyStrip txt = "" ∧ f = none
    · rw [handle_message_empty sid rid txt f now st uname hm he]
      refine ⟨iff_of_false (by simp) ?_, iff_of_true rfl ⟨hs, he⟩,
        iff_of_false (by simp) ?_⟩
      · intro hn
        rw [show roomMembers st rid = (alookup st.active_rooms rid).getD [] from rfl,
          hm] at hn
        simp at hn
      · rintro ⟨_, hne⟩
        rcases hne with hne | hne
        · exact hne he.1
        · exact hne he.2
    · rw [handle_message_success sid rid txt f now st uname hm he]
      refine ⟨iff_of_false (by simp) ?_, iff_of_false (by simp) ?_,
        iff_of_true rfl ⟨hs, ?_⟩⟩
      · intro hn
        rw [show roomMembers st rid = (alookup st.active_rooms rid).getD [] from rfl,
          hm] at hn
        simp at hn
      · rintro ⟨_, he2⟩
        exact he he2
      · by_cases h1 : pyStrip txt = ""
        · right
          intro h2
          exact he ⟨h1, h2⟩
        · left
          exact h1

/-- C3: whenever the join handler or the send handler returns a validation
error, the store (rooms, memberships and histories alike) is exactly the same
after the call as before it. -/
theorem C3_errors_leave_store_unchanged (sid u rid txt : String)
    (f : Option String) (now : Nat) (st : ServerState) :
    (∀ msg, (on_join sid u rid now st).1 = Ack.error msg →
      (on_join sid u rid now st).2.1 = st) ∧
    (∀ msg, (handle_message sid rid txt f now st).1 = Ack.error msg →
      (handle_message sid rid txt f now st).2.1 = st) := by
  constructor
  · intro msg herr
    by_cases hv : pyStrip u = "" ∨ (pyStrip u).length < 2 ∨ 20 < (pyStrip u).length
    · rw [on_join_invalid sid u rid now st hv]
    · rcases hroom : alookup st.active_rooms rid with _ | users0
      · rw [on_join_fresh sid u rid now st hv hroom] at herr
        simp at herr
      · have hroomb : (alookup st.active_rooms rid).isSome = true := by simp [hroom]
        by_cases ht : pyStrip u ∈ ((alookup st.active_rooms rid).getD []).map Prod.snd
        · rw [on_join_taken sid u rid now st hv hroomb ht]
        · rw [on_join_success_existing sid u rid now st hv hroomb ht] at herr
          simp at herr
  · intro msg herr
    rcases hm : alookup ((alookup st.active_rooms rid).getD []) sid with _ | uname
    · rw [handle_message_not_in_room sid rid txt f now st hm]
    · by_cases he : pyStrip txt = "" ∧ f = none
      · rw [handle_message_empty sid rid txt f now st uname hm he]
      · rw [handle_message_success sid rid txt f now st uname hm he] at herr
        simp at herr

/-- C9: a signaling relay of any of the three kinds whose target connection id
is not a live registered connection completes without error, delivers no
outbound event to anyone, and reports nothing back to the sender. -/
theorem C9_relay_to_dead_target_is_noop (live : List String)
    (sid rid target payload : String) (st : ServerState) (h : target ∉ live) :
    handle_offer live sid rid target payload st = [] ∧
    handle_answer live sid target payload = [] ∧
    handle_ice_candidate live sid target payload = [] := by
  refine ⟨?_, ?_, ?_⟩ <;>
    simp [handle_offer, handle_answer, handle_ice_candidate, sidRoomMembers, h]

/-- C10: after every run of event-handler executions, a room id holds a
membership entry in active_rooms exactly when it holds a history entry in
messages. -/
theorem C10_tables_key_aligned (es : List Event) (rid : String) :
    (alookup (run es).active_rooms rid).isSome
      ↔ (alookup (run es).messages rid).isSome :=
  (Inv_run es).2.2 rid

/-- C1 counterexample: after connection s joins room a and then room b, it is
recorded in both rooms' memberships at once — the join handler performed no
implicit leave, so the single-room invariant fails. -/
theorem C1_counterexample :
    (alookup (roomMembers (run [Event.join "s" "alice" "a" 0,
        Event.join "s" "alice" "b" 1]) "a") "s" = some "alice") ∧
    (alookup (roomMembers (run [Event.join "s" "alice" "a" 0,
        Event.join "s" "alice" "b" 1]) "b") "s" = some "alice") := by
  constructor
  · decide
  · decide

/-- C1 amended: the join handler never removes the connection from any other
room and emits no departure notification, so a connection that joins a second
room while a member of a first remains recorded in both; only disconnect
removes memberships. -/
theorem C1_amended_join_leaves_other_rooms (sid u rid rid2 : String) (now : Nat)
    (st : ServerState) (h : rid2 ≠ rid) :
    alookup (on_join sid u rid now st).2.1.active_rooms rid2
      = alookup st.active_rooms rid2 ∧
    (∀ p ∈ (on_join sid u rid now st).2.2, ∀ uname msg t users,
      p.2 ≠ OutEvent.user_left uname msg t users) := by
  by_cases hv : pyStrip u = "" ∨ (pyStrip u).length < 2 ∨ 20 < (pyStrip u).length
  · rw [on_join_invalid sid u rid now st hv]
    exact ⟨rfl, by simp⟩
  · rcases hroom : alookup st.active_rooms rid with _ | users0
    · rw [on_join_fresh sid u rid now st hv hroom]
      refine ⟨?_, by simp⟩
      rw [show ({ st with
            active_rooms := aset (aset st.active_rooms rid []) rid [(sid, pyStrip u)],
            messages := aset st.messages rid [] } : ServerState).active_rooms
          = aset (aset st.active_rooms rid []) rid [(sid, pyStrip u)] from rfl,
        alookup_aset_ne _ _ _ _ h, alookup_aset_ne _ _ _ _ h]
    · have hroomb : (alookup st.active_rooms rid).isSome = true := by simp [hroom]
      by_cases ht : pyStrip u ∈ ((alookup st.active_rooms rid).getD []).map Prod.snd
      · rw [on_join_taken sid u rid now st hv hroomb ht]
        exact ⟨rfl, by simp⟩
      · rw [on_join_success_existing sid u rid now st hv hroomb ht]
        refine ⟨alookup_aset_ne _ _ _ _ h, ?_⟩
        intro p hp uname msg t users
        rcases List.mem_cons.mp hp with h2 | h2
        · subst h2
          simp
        · obtain ⟨q, _, hq⟩ := List.mem_map.mp h2
          rw [← hq]
          simp

/-- C2 counterexample: with sender s occupying room r1 as alice and a live
target t, the relayed webrtc_answer event contains the sender's connection id
but no username field at all; and the webrtc_offer relayed with an absent
room_id field carries the unknown-sender marker even though the sender is in a
room. -/
theorem C2_counterexample :
    (alookup (roomMembers
        (⟨[("r1", [("s", "alice")])], [("r1", [])], 0⟩ : ServerState) "r1") "s"
      = some "alice") ∧
    (handle_answer ["t"] "s" "t" "pay" = [("t", OutEvent.webrtc_answer "pay" "s")]) ∧
    ("alice" ∉ eventStrings (OutEvent.webrtc_answer "pay" "s")) ∧
    (handle_offer ["t"] "s" "" "t" "pay"
        (⟨[("r1", [("s", "alice")])], [("r1", [])], 0⟩ : ServerState)
      = [("t", OutEvent.webrtc_offer "pay" "s" "Someone")]) := by
  refine ⟨by decide, by decide, by decide, by decide⟩

/-- C2 amended: each relay delivers exactly one event to the live target;
only webrtc_offer carries a sender username, resolved from the room_id
supplied in the event data (the member's name when the sender is recorded in
that room, the marker Someone otherwise); webrtc_answer and ice_candidate
carry only the sender's connection id beside the untouched payload. -/
theorem C2_amended_relay_sender_identity (live : List String)
    (sid rid target payload : String) (st : ServerState) (h : target ∈ live) :
    (handle_offer live sid rid target payload st
      = [(target, OutEvent.webrtc_offer payload sid (senderName st rid sid))]) ∧
    (∀ uname, alookup (roomMembers st rid) sid = some uname →
      senderName st rid sid = uname) ∧
    (alookup (roomMembers st rid) sid = none → senderName st rid sid = "Someone") ∧
    (handle_answer live sid target payload
      = [(target, OutEvent.webrtc_answer payload sid)]) ∧
    (handle_ice_candidate live sid target payload
      = [(target, OutEvent.ice_candidate payload sid)]) := by
  refine ⟨?_, ?_, ?_, ?_, ?_⟩
  · simp [handle_offer, sidRoomMembers, h]
  · intro uname hm
    rw [senderName, show roomMembers st rid
        = (alookup st.active_rooms rid).getD [] from rfl] at *
    rw [hm]
    rfl
  · intro hm
    rw [senderName, show roomMembers st rid
        = (alookup st.active_rooms rid).getD [] from rfl] at *
    rw [hm]
    rfl
  · simp [handle_answer, sidRoomMembers, h]
  · simp [handle_ice_candidate, sidRoomMembers, h]

/-- C7: the join confirmation replays the last at-most-50 messages of the
target room's history in original order — the replayed list is a suffix of the
history of length min 50 n — and with a 60-message history the joiner receives
exactly messages 11 through 60. -/
theorem C7_history_replay (sid u rid : String) (now : Nat) (st : ServerState)
    (hroom : (alookup st.active_rooms rid).isSome = true)
    (hsucc : (on_join sid u rid now st).1 = Ack.success) :
    (∃ users, ((on_join sid u rid now st).2.2).head?
      = some (sid, OutEvent.join_confirmation (pyStrip u) rid users
          (lastN 50 (roomHistory st rid)))) ∧
    (∀ h : List Message, lastN 50 h <:+ h ∧ (lastN 50 h).length = min 50 h.length) ∧
    (∀ h : List Message, h.length = 60 → lastN 50 h = h.drop 10) := by
  have hgen : ∀ h : List Message, lastN 50 h <:+ h ∧
      (lastN 50 h).length = min 50 h.length := by
    intro h
    constructor
    · exact List.drop_suffix _ _
    · rw [lastN, List.length_drop]
      omega
  have h60 : ∀ h : List Message, h.length = 60 → lastN 50 h = h.drop 10 := by
    intro h hlen
    rw [lastN, hlen]
  by_cases hv : pyStrip u = "" ∨ (pyStrip u).length < 2 ∨ 20 < (pyStrip u).length
  · rw [on_join_invalid sid u rid now st hv] at hsucc
    simp at hsucc
  · by_cases ht : pyStrip u ∈ ((alookup st.active_rooms rid).getD []).map Prod.snd
    · rw [on_join_taken sid u rid now st hv hroom ht] at hsucc
      simp at hsucc
    · rw [on_join_success_existing sid u rid now st hv hroom ht]
      exact ⟨⟨_, rfl⟩, hgen, h60⟩

/-- C8: no reachable store ever holds a room with zero members, and when a
disconnect removal empties a room's membership the room and its entire history
are deleted from the store by that same operation. -/
theorem C8_empty_room_teardown (es : List Event) (sid rid : String) (now : Nat)
    (users : List (String × String))
    (h1 : alookup (run es).active_rooms rid = some users)
    (h2 : aerase users sid = []) :
    (∀ k us, alookup (run es).active_rooms k = some us → us ≠ []) ∧
    alookup (handle_disconnect sid now (run es)).1.active_rooms rid = none ∧
    alookup (handle_disconnect sid now (run es)).1.messages rid = none := by
  obtain ⟨hnd, hne, hal⟩ := Inv_run es
  have hnonnil : users ≠ [] := hne rid users h1
  have hsid : (alookup users sid).isSome :=
    alookup_isSome_of_aerase_nil users sid hnonnil h2
  rcases hu : alookup users sid with _ | uname
  · rw [hu] at hsid
    simp at hsid
  · have hpurge : purge sid users = none := by
      rw [purge, hu]
      simp [h2]
    refine ⟨hne, ?_, ?_⟩
    · rw [show (handle_disconnect sid now (run es)).1.active_rooms
          = (disconnectRooms sid now (run es).active_rooms (run es).messages).1
          from rfl,
        disconnect_lookup sid now (run es).active_rooms (run es).messages rid hnd,
        h1]
      rw [show Option.bind (some users) (purge sid) = purge sid users from rfl, hpurge]
    · rw [show (handle_disconnect sid now (run es)).1.messages
          = (disconnectRooms sid now (run es).active_rooms (run es).messages).2.1
          from rfl,
        disconnect_msgs_lookup sid now (run es).active_rooms (run es).messages rid hnd,
        h1]
      simp [hpurge]

/-- C6: every successful send appends exactly one new message to the target
room's history, that message's id differs from the id of every message
broadcast earlier in the run, and the very message is delivered as a
new_message event to every current room member including the sender. -/
theorem C6_send_appends_and_broadcasts (es : List Event) (sid rid txt : String)
    (f : Option String) (now : Nat)
    (hsucc : (handle_message sid rid txt f now (run es)).1 = Ack.success) :
    ∃ m : Message,
      alookup (handle_message sid rid txt f now (run es)).2.1.messages rid
        = some (roomHistory (run es) rid ++ [m]) ∧
      (∀ p ∈ (runOuts es).2, ∀ m2 : Message,
        p.2 = OutEvent.new_message m2 → m2.id ≠ m.id) ∧
      (handle_message sid rid txt f now (run es)).2.2
        = (roomMembers (run es) rid).map (fun p => (p.1, OutEvent.new_message m)) ∧
      (sid, OutEvent.new_message m) ∈ (handle_message sid rid txt f now (run es)).2.2 := by
  rcases hm : alookup ((alookup (run es).active_rooms rid).getD []) sid with _ | uname
  · rw [handle_message_not_in_room sid rid txt f now (run es) hm] at hsucc
    simp at hsucc
  · by_cases he : pyStrip txt = "" ∧ f = none
    · rw [handle_message_empty sid rid txt f now (run es) uname hm he] at hsucc
      simp at hsucc
    · rw [handle_message_success sid rid txt f now (run es) uname hm he]
      refine ⟨⟨(run es).nextId, uname, pyStrip txt, now, f⟩, ?_, ?_, rfl, ?_⟩
      · exact alookup_aset_self _ _ _
      · intro p hp m2 hm2
        have hlt := runOuts_idsBound es p hp m2 hm2
        rw [runOuts_fst_run es] at hlt
        exact Nat.ne_of_lt hlt
      · refine List.mem_map.mpr ⟨(sid, uname), alookup_some_mem _ _ _ hm, rfl⟩

/-! ### Concrete witnesses -/

/-- C3 witness: a 1-character username join and a not-in-room send against the
empty store both error and leave the store untouched. -/
theorem C3_witness :
    (on_join "s" "x" "r" 0 initState).2.1 = initState ∧
    (handle_message "s" "r" "" none 0 initState).2.1 = initState :=
  ⟨(C3_errors_leave_store_unchanged "s" "x" "r" "" none 0 initState).1
      "Username must be 2-20 characters" (by decide),
   (C3_errors_leave_store_unchanged "s" "x" "r" "" none 0 initState).2
      "Not in room" (by decide)⟩

/-- C9 witness: relaying to the unregistered target t delivers nothing. -/
theorem C9_witness :
    handle_offer ["a", "b"] "s" "r" "t" "p" initState = [] ∧
    handle_answer ["a", "b"] "s" "t" "p" = [] ∧
    handle_ice_candidate ["a", "b"] "s" "t" "p" = [] :=
  C9_relay_to_dead_target_is_noop ["a", "b"] "s" "r" "t" "p" initState (by decide)

/-- C1 amended witness: after s joined room a, joining room b leaves the
membership of room a exactly as it was. -/
theorem C1_amended_witness :
    alookup (on_join "s" "alice" "b" 1
        (run [Event.join "s" "alice" "a" 0])).2.1.active_rooms "a"
      = alookup (run [Event.join "s" "alice" "a" 0]).active_rooms "a" :=
  (C1_amended_join_leaves_other_rooms "s" "alice" "b" "a" 1
      (run [Event.join "s" "alice" "a" 0]) (by decide)).1

/-- C2 amended witness: the answer relayed to the live target t is a single
event holding only the payload and the sender's connection id. -/
theorem C2_amended_witness :
    handle_answer ["t", "x"] "s" "t" "pay"
      = [("t", OutEvent.webrtc_answer "pay" "s")] :=
  (C2_amended_relay_sender_identity ["t", "x"] "s" "r" "t" "pay" initState
      (by decide)).2.2.2.1

/-- A store with one room r, one member bob, and sixty history messages. -/
def sixtyState : ServerState :=
  ⟨[("r", [("x", "bob")])],
   [("r", (List.range 60).map (fun i => ⟨i, "bob", "m", i, none⟩))], 60⟩

/-- C7 witness: joining the sixty-message room succeeds and the confirmation
replays the last fifty messages, i.e. messages 11 through 60. -/
theorem C7_witness :
    (∃ users, ((on_join "s" "alice" "r" 99 sixtyState).2.2).head?
      = some ("s", OutEvent.join_confirmation (pyStrip "alice") "r" users
          (lastN 50 (roomHistory sixtyState "r")))) ∧
    (∀ h : List Message, lastN 50 h <:+ h ∧ (lastN 50 h).length = min 50 h.length) ∧
    (∀ h : List Message, h.length = 60 → lastN 50 h = h.drop 10) :=
  C7_history_replay "s" "alice" "r" 99 sixtyState (by decide) (by decide)

/-- C8 witness: disconnecting the sole member of room r deletes the room and
its history from the store. -/
theorem C8_witness :
    alookup (handle_disconnect "s" 5
        (run [Event.join "s" "alice" "r" 0])).1.active_rooms "r" = none ∧
    alookup (handle_disconnect "s" 5
        (run [Event.join "s" "alice" "r" 0])).1.messages "r" = none :=
  (C8_empty_room_teardown [Event.join "s" "alice" "r" 0] "s" "r" 5
      [("s", "alice")] (by decide) (by decide)).2

/-- C6 witness: after alice joins room r, her send of hi appends one freshly
identified message and broadcasts it to the whole room including herself. -/
theorem C6_witness :
    ∃ m : Message,
      alookup (handle_message "s" "r" "hi" none 1
          (run [Event.join "s" "alice" "r" 0])).2.1.messages "r"
        = some (roomHistory (run [Event.join "s" "alice" "r" 0]) "r" ++ [m]) ∧
      (∀ p ∈ (runOuts [Event.join "s" "alice" "r" 0]).2, ∀ m2 : Message,
        p.2 = OutEvent.new_message m2 → m2.id ≠ m.id) ∧
      ((handle_message "s" "r" "hi" none 1
          (run [Event.join "s" "alice" "r" 0])).2.2
        = (roomMembers (run [Event.join "s" "alice" "r" 0]) "r").map
            (fun p => (p.1, OutEvent.new_message m))) ∧
      (("s", OutEvent.new_message m)
        ∈ (handle_message "s" "r" "hi" none 1
            (run [Event.join "s" "alice" "r" 0])).2.2) :=
  C6_send_appends_and_broadcasts [Event.join "s" "alice" "r" 0]
    "s" "r" "hi" none 1 (by decide)

end ChatApp
